import Mathlib

/-!
Verification of the ARO-RP vmsscleaner decision logic and of the AppLens
detector client adapter, against the repository's specification.

Part I embeds the scale-set cleanup and probe reconciliation decision logic
(spec sections 4.1 and 4.2).  The implementation of these two functions is not
part of the available sources; only their unit tests
(TestRemoveFailedScaleset, TestUpdateProbe) are.  The definitions below are
therefore modelled from the spec, with the behaviour additionally pinned by
those in-tree tests, which are reproved below as theorems.

Part II embeds the AppLens client (applens.go), whose source is available:
response envelope construction, detector id extraction, and the
success-status gate of executeAndEnsureSuccessResponse.
-/

/-- A virtual machine scale set as seen by the cleaner: only the name matters
to the decision logic.  The name is optional (`Name *string` in the Azure
SDK); the network profile mutated by the probe reconciler is opaque to every
decision taken here and is not represented. -/
structure VirtualMachineScaleSet where
  Name : Option String
deriving DecidableEq

/-- Deterministic oracle standing for the scale-set management client of spec
section 6: the outcome of the single List call, and whether DeleteAndWait /
CreateOrUpdateAndWait succeeds for a given scale-set name.  An `Except.error`
list result models `List` returning a non-nil error. -/
structure VMSSClientBehavior where
  listResult : Except String (List VirtualMachineScaleSet)
  deleteSucceeds : String → Bool
  createOrUpdateSucceeds : String → Bool

/-- Deletion loop of the remover: walk the listed scale sets; on each whose
name equals the target, issue DeleteAndWait; a failed deletion aborts with
`false`.  Returns the retry signal and the names passed to DeleteAndWait, in
call order. -/
def deleteLoop (c : VMSSClientBehavior) (vmssToDelete : String) :
    List VirtualMachineScaleSet → List String → Bool × List String
  | [], issued => (true, issued.reverse)
  | s :: rest, issued =>
    if s.Name = some vmssToDelete then
      if c.deleteSucceeds vmssToDelete then
        deleteLoop c vmssToDelete rest (vmssToDelete :: issued)
      else
        (false, (vmssToDelete :: issued).reverse)
    else
      deleteLoop c vmssToDelete rest issued

/-- Modelled from the spec: the implementation of `RemoveFailedNewScaleset`
(spec section 4.1) is not among the available sources, only its unit tests.
Steps follow the spec text — list failure returns `false`, an empty list
returns `true`, an absent target returns `true`, a present target is deleted
(success `true`, failure `false`) — and the single-scale-set special case,
absent from the spec text but pinned by the in-tree test "1 scaleset found,
same name from that in new deployment, don't delete, don't retry", returns
`false` without deleting when the target is the only listed scale set.
The second component records the names passed to DeleteAndWait. -/
def RemoveFailedNewScaleset (c : VMSSClientBehavior) (vmssToDelete : String) :
    Bool × List String :=
  match c.listResult with
  | .error _ => (false, [])
  | .ok scalesets =>
    match scalesets with
    | [] => (true, [])
    | [s] =>
      if s.Name = some vmssToDelete then (false, []) else (true, [])
    | a :: b :: rest => deleteLoop c vmssToDelete (a :: b :: rest) []

/-- `strings.HasPrefix` over the characters of the two strings. -/
def charsStartWith : List Char → List Char → Bool
  | [], _ => true
  | _ :: _, [] => false
  | p :: ps, c :: cs => p == c && charsStartWith ps cs

/-- Modelled from the spec: the fixed gateway-naming convention of spec
section 4.2, a hidden string constant per spec section 9; pinned by
TestUpdateProbe, where "gateway-vmss-redhat" matches and a name without the
gateway marker does not. -/
def isGatewayVMSSName (name : String) : Bool :=
  charsStartWith "gateway-vmss-".data name.data

/-- Update loop of the probe reconciler: walk the listed scale sets; on each
whose (present) name matches the gateway naming convention, issue
CreateOrUpdateAndWait; the first failed update aborts with `false`.  Returns
the retry signal and the names passed to CreateOrUpdateAndWait, in call
order. -/
def updateLoop (c : VMSSClientBehavior) :
    List VirtualMachineScaleSet → List String → Bool × List String
  | [], issued => (true, issued.reverse)
  | s :: rest, issued =>
    match s.Name with
    | some n =>
      if isGatewayVMSSName n then
        if c.createOrUpdateSucceeds n then
          updateLoop c rest (n :: issued)
        else
          (false, (n :: issued).reverse)
      else
        updateLoop c rest issued
    | none => updateLoop c rest issued

/-- Modelled from the spec: the implementation of `UpdateVMSSProbes` (spec
section 4.2) is not among the available sources, only its unit tests.  List
failure returns `false`; each listed scale set whose name matches the gateway
naming convention receives an update-and-wait call; the first update failure
aborts the pass and returns `false` (spec section 7); otherwise `true`.
The second component records the names passed to CreateOrUpdateAndWait. -/
def UpdateVMSSProbes (c : VMSSClientBehavior) : Bool × List String :=
  match c.listResult with
  | .error _ => (false, [])
  | .ok scalesets => updateLoop c scalesets []

/-- A decoded Go `interface` value as produced by `json.Unmarshal`: null,
booleans, numbers, strings, slices and string-keyed maps.  Numbers (float64
in Go) are carried abstractly as integers, since no function of the embedded
code inspects a numeric payload. -/
inductive GoValue where
  | null : GoValue
  | bool (b : Bool) : GoValue
  | num (n : Int) : GoValue
  | str (s : String) : GoValue
  | arr (elems : List GoValue) : GoValue
  | obj (fields : List (String × GoValue)) : GoValue

/-- Go map indexing on a decoded JSON object.  `json.Unmarshal` produces maps
with unique keys, so first-match association lookup is exact. -/
def lookupField (fields : List (String × GoValue)) (key : String) : Option GoValue :=
  match fields with
  | [] => none
  | (k, v) :: rest => if k = key then some v else lookupField rest key

/-- getDetectorID (applens.go): a decoded entry yields a detector id when it
is a JSON object whose "metadata" field is a JSON object whose "id" field is
a JSON string; every other shape yields the empty string. -/
def getDetectorID (detector : GoValue) : String :=
  match detector with
  | GoValue.obj propertyMap =>
    match lookupField propertyMap "metadata" with
    | some (GoValue.obj metadataMap) =>
      match lookupField metadataMap "id" with
      | some (GoValue.str id) => id
      | _ => ""
    | _ => ""
  | _ => ""

/-- One pass of Go stdlib path.Clean segment processing: drop empty and "."
segments; ".." pops the previous kept segment, stays as ".." in a relative
path with nothing to pop, and is dropped at the root of a rooted path. -/
def cleanSegments (rooted : Bool) : List String → List String → List String
  | [], acc => acc.reverse
  | seg :: rest, acc =>
    if seg = "" ∨ seg = "." then
      cleanSegments rooted rest acc
    else if seg = ".." then
      match acc with
      | top :: accRest =>
        if top = ".." then cleanSegments rooted rest (seg :: acc)
        else cleanSegments rooted rest accRest
      | [] =>
        if rooted then cleanSegments rooted rest []
        else cleanSegments rooted rest [".."]
    else
      cleanSegments rooted rest (seg :: acc)

/-- Go stdlib path.Clean: lexical simplification of a slash-separated path. -/
def pathClean (p : String) : String :=
  if p = "" then "."
  else
    let rooted := p.startsWith "/"
    let out := String.intercalate "/" (cleanSegments rooted (p.splitOn "/") [])
    if rooted then (if out = "" then "/" else "/" ++ out)
    else (if out = "" then "." else out)

/-- Go stdlib path.Join as called by applens.go: empty elements contribute
nothing, the rest are joined with "/" and the result cleaned; all elements
empty yields "". -/
def pathJoin (elems : List String) : String :=
  let nonEmpty := elems.filter (fun e => e ≠ "")
  if nonEmpty.isEmpty then "" else pathClean (String.intercalate "/" nonEmpty)

/-- Response envelope for a single detector (applens.go). -/
structure ResponseMessageEnvelope where
  Id : String
  Name : String
  Type' : String
  Location : String
  Properties : GoValue

/-- Response envelope for a detector collection (applens.go). -/
structure ResponseMessageCollectionEnvelope where
  Value : List ResponseMessageEnvelope

/-- Errors surfaced by the embedded client.  In Go all three are mere values
of the `error` interface, distinguished by construction: an error returned by
`pipeline.Do`, a `json.Unmarshal` decoding error, or the AppLens error of a
non-success HTTP response. -/
inductive ClientError where
  | transportError (msg : String) : ClientError
  | decodeError (msg : String) : ClientError
  | appLensError (statusCode : Int) : ClientError

/-- An HTTP response as consumed on the detector path: its status code, and
its body abstracted to the JSON document it carries (`none` when the body is
not valid JSON). -/
structure HttpResponse where
  StatusCode : Int
  Body : Option GoValue

/-- Modelled from the spec: `newAppLensError` is not among the available
sources; the spec says a non-success response is "converted into a
domain-specific error carrying the response detail". -/
def newAppLensError (response : HttpResponse) : ClientError :=
  ClientError.appLensError response.StatusCode

/-- `json.Unmarshal(valueJson, &results)` with `results []interface`:
fails when the body is not valid JSON, or is valid JSON of a non-array
shape; otherwise yields the decoded elements. -/
def unmarshalArray : Option GoValue → Except ClientError (List GoValue)
  | some (GoValue.arr elems) => Except.ok elems
  | some _ => Except.error (ClientError.decodeError "json: cannot unmarshal value into Go slice")
  | none => Except.error (ClientError.decodeError "invalid character in JSON input")

/-- `json.Unmarshal(propertiesJson, &converted)` with `converted interface`:
fails only when the body is not valid JSON. -/
def unmarshalValue : Option GoValue → Except ClientError GoValue
  | some v => Except.ok v
  | none => Except.error (ClientError.decodeError "invalid character in JSON input")

/-- The collection loop of newResponseMessageCollectionEnvelope: each decoded
entry with a nonempty detector id is wrapped into an envelope, in input
order; entries whose id is empty are skipped. -/
def collectEnvelopes (resourceID location : String) : List GoValue → List ResponseMessageEnvelope
  | [] => []
  | v :: rest =>
    let id := getDetectorID v
    if 0 < id.length then
      { Id := pathJoin [resourceID, "detectors", id]
        Name := id
        Location := location
        Type' := "Microsoft.RedHatOpenShift/openShiftClusters/detectors"
        Properties := v } :: collectEnvelopes resourceID location rest
    else
      collectEnvelopes resourceID location rest

/-- newResponseMessageCollectionEnvelope (applens.go): decode the body as a
JSON array, propagating any decoding error; wrap each entry carrying a
nonempty detector id. -/
def newResponseMessageCollectionEnvelope (valueJson : Option GoValue)
    (resourceID location : String) :
    Except ClientError ResponseMessageCollectionEnvelope :=
  match unmarshalArray valueJson with
  | Except.error e => Except.error e
  | Except.ok results =>
    Except.ok { Value := collectEnvelopes resourceID location results }

/-- newResponseMessageEnvelope (applens.go): decode the body as an arbitrary
JSON document, propagating any decoding error; wrap it under the given
detector name. -/
def newResponseMessageEnvelope (resourceID name location : String)
    (propertiesJson : Option GoValue) :
    Except ClientError ResponseMessageEnvelope :=
  match unmarshalValue propertiesJson with
  | Except.error e => Except.error e
  | Except.ok converted =>
    Except.ok
      { Id := pathJoin [resourceID, "detectors", name]
        Name := name
        Type' := "Microsoft.RedHatOpenShift/openShiftClusters/detectors"
        Location := location
        Properties := converted }

/-- executeAndEnsureSuccessResponse (applens.go): a pipeline error is
propagated; a response whose status is in the 2xx range or equals 304 is
passed through; any other status becomes an AppLens error built from the
response.  The argument stands for the outcome of `pipeline.Do`. -/
def executeAndEnsureSuccessResponse (pipelineResult : Except String HttpResponse) :
    Except ClientError HttpResponse :=
  match pipelineResult with
  | Except.error e => Except.error (ClientError.transportError e)
  | Except.ok response =>
    if (200 ≤ response.StatusCode ∧ response.StatusCode < 300) ∨ response.StatusCode = 304 then
      Except.ok response
    else
      Except.error (newAppLensError response)

/-- Options of ListDetectors used on the detector path. -/
structure ListDetectorsOptions where
  ResourceID : String
  Location : String

/-- Options of GetDetector used on the detector path. -/
structure GetDetectorOptions where
  ResourceID : String
  DetectorID : String
  Location : String

/-- ListDetectors (applens.go): gate the pipeline outcome through
executeAndEnsureSuccessResponse, then build the collection envelope from the
response body.  Request construction and body reading are collapsed into the
pipeline outcome argument. -/
def ListDetectors (pipelineResult : Except String HttpResponse)
    (o : ListDetectorsOptions) :
    Except ClientError ResponseMessageCollectionEnvelope :=
  match executeAndEnsureSuccessResponse pipelineResult with
  | Except.error e => Except.error e
  | Except.ok azResponse =>
    newResponseMessageCollectionEnvelope azResponse.Body o.ResourceID o.Location

/-- GetDetector (applens.go): gate the pipeline outcome through
executeAndEnsureSuccessResponse, then build the single envelope from the
response body. -/
def GetDetector (pipelineResult : Except String HttpResponse)
    (o : GetDetectorOptions) :
    Except ClientError ResponseMessageEnvelope :=
  match executeAndEnsureSuccessResponse pipelineResult with
  | Except.error e => Except.error e
  | Except.ok azResponse =>
    newResponseMessageEnvelope o.ResourceID o.DetectorID o.Location azResponse.Body

/-! ## Helper lemmas -/

theorem string_length_pos (s : String) (h : s ≠ "") : 0 < s.length := by
  cases s with
  | mk data =>
    cases data with
    | nil => exact absurd rfl h
    | cons c cs => simp [String.length]

theorem deleteLoop_no_match (c : VMSSClientBehavior) (t : String)
    (sets : List VirtualMachineScaleSet) (issued : List String)
    (h : ∀ s ∈ sets, s.Name ≠ some t) :
    deleteLoop c t sets issued = (true, issued.reverse) := by
  induction sets generalizing issued with
  | nil => rfl
  | cons s rest ih =>
    unfold deleteLoop
    rw [if_neg (h s (List.mem_cons_self s rest))]
    exact ih issued (fun x hx => h x (List.mem_cons_of_mem s hx))

theorem deleteLoop_fst (c : VMSSClientBehavior) (t : String)
    (sets : List VirtualMachineScaleSet) (issued : List String)
    (h : ∃ s ∈ sets, s.Name = some t) :
    (deleteLoop c t sets issued).1 = c.deleteSucceeds t := by
  induction sets generalizing issued with
  | nil => simp at h
  | cons s rest ih =>
    unfold deleteLoop
    by_cases hs : s.Name = some t
    · rw [if_pos hs]
      cases hd : c.deleteSucceeds t with
      | false => rw [if_neg (by simp [hd])]
      | true =>
        rw [if_pos (by simp [hd])]
        by_cases hr : ∃ x ∈ rest, x.Name = some t
        · rw [ih _ hr]
          exact hd
        · rw [deleteLoop_no_match c t rest _ (fun x hx hxn => hr ⟨x, hx, hxn⟩)]
    · rw [if_neg hs]
      rcases h with ⟨x, hx, hxn⟩
      rcases List.mem_cons.mp hx with hx1 | hx2
      · exact absurd (hx1 ▸ hxn) hs
      · exact ih issued ⟨x, hx2, hxn⟩

theorem deleteLoop_snd_mem (c : VMSSClientBehavior) (t : String)
    (sets : List VirtualMachineScaleSet) (issued : List String)
    (h : (∃ s ∈ sets, s.Name = some t) ∨ t ∈ issued) :
    t ∈ (deleteLoop c t sets issued).2 := by
  induction sets generalizing issued with
  | nil =>
    rcases h with h1 | h2
    · simp at h1
    · simpa [deleteLoop] using h2
  | cons s rest ih =>
    unfold deleteLoop
    by_cases hs : s.Name = some t
    · rw [if_pos hs]
      cases hd : c.deleteSucceeds t with
      | false => rw [if_neg (by simp [hd])]; simp
      | true =>
        rw [if_pos (by simp [hd])]
        exact ih _ (Or.inr (List.mem_cons_self t issued))
    · rw [if_neg hs]
      apply ih
      rcases h with ⟨x, hx, hxn⟩ | h2
      · rcases List.mem_cons.mp hx with hx1 | hx2
        · exact absurd (hx1 ▸ hxn) hs
        · exact Or.inl ⟨x, hx2, hxn⟩
      · exact Or.inr h2

theorem updateLoop_no_gateway (c : VMSSClientBehavior)
    (sets : List VirtualMachineScaleSet) (issued : List String)
    (h : ∀ s ∈ sets, ∀ n, s.Name = some n → isGatewayVMSSName n = false) :
    updateLoop c sets issued = (true, issued.reverse) := by
  induction sets generalizing issued with
  | nil => rfl
  | cons s rest ih =>
    have hrest := fun x hx => h x (List.mem_cons_of_mem s hx)
    cases hn : s.Name with
    | none =>
      simp only [updateLoop, hn]
      exact ih issued hrest
    | some n =>
      simp only [updateLoop, hn]
      rw [if_neg (by simp [h s (List.mem_cons_self s rest) n hn])]
      exact ih issued hrest

theorem updateLoop_fst_true (c : VMSSClientBehavior)
    (sets : List VirtualMachineScaleSet) (issued : List String)
    (h : ∀ s ∈ sets, ∀ n, s.Name = some n → isGatewayVMSSName n = true →
        c.createOrUpdateSucceeds n = true) :
    (updateLoop c sets issued).1 = true := by
  induction sets generalizing issued with
  | nil => rfl
  | cons s rest ih =>
    have hrest := fun x hx => h x (List.mem_cons_of_mem s hx)
    cases hn : s.Name with
    | none =>
      simp only [updateLoop, hn]
      exact ih issued hrest
    | some n =>
      simp only [updateLoop, hn]
      by_cases hg : isGatewayVMSSName n = true
      · rw [if_pos hg, if_pos (h s (List.mem_cons_self s rest) n hn hg)]
        exact ih _ hrest
      · rw [if_neg hg]
        exact ih issued hrest

theorem updateLoop_fst_false (c : VMSSClientBehavior)
    (sets : List VirtualMachineScaleSet) (issued : List String)
    (h : ∃ s ∈ sets, ∃ n, s.Name = some n ∧ isGatewayVMSSName n = true ∧
        c.createOrUpdateSucceeds n = false) :
    (updateLoop c sets issued).1 = false := by
  induction sets generalizing issued with
  | nil => simp at h
  | cons s rest ih =>
    rcases h with ⟨x, hx, n, hxn, hg, hfail⟩
    rcases List.mem_cons.mp hx with hx1 | hx2
    · subst hx1
      simp only [updateLoop, hxn]
      rw [if_pos hg, if_neg (by simp [hfail])]
    · have hr : ∃ x ∈ rest, ∃ n, x.Name = some n ∧ isGatewayVMSSName n = true ∧
          c.createOrUpdateSucceeds n = false := ⟨x, hx2, n, hxn, hg, hfail⟩
      cases hn : s.Name with
      | none =>
        simp only [updateLoop, hn]
        exact ih issued hr
      | some m =>
        simp only [updateLoop, hn]
        by_cases hg2 : isGatewayVMSSName m = true
        · rw [if_pos hg2]
          cases hu : c.createOrUpdateSucceeds m with
          | false => rw [if_neg (by simp)]
          | true => rw [if_pos (by simp)]; exact ih _ hr
        · rw [if_neg hg2]
          exact ih issued hr

theorem updateLoop_snd_from (c : VMSSClientBehavior)
    (sets : List VirtualMachineScaleSet) (issued : List String) :
    ∀ n ∈ (updateLoop c sets issued).2,
      (isGatewayVMSSName n = true ∧ ∃ s ∈ sets, s.Name = some n) ∨ n ∈ issued := by
  induction sets generalizing issued with
  | nil =>
    intro n hn
    exact Or.inr (by simpa [updateLoop] using hn)
  | cons s rest ih =>
    intro n hn
    have push : ∀ m, isGatewayVMSSName m = true → s.Name = some m →
        ((isGatewayVMSSName n = true ∧ ∃ x ∈ rest, x.Name = some n) ∨ n ∈ m :: issued) →
        (isGatewayVMSSName n = true ∧ ∃ x ∈ s :: rest, x.Name = some n) ∨ n ∈ issued := by
      intro m hg hm hcase
      rcases hcase with ⟨hg2, x, hx, hxn⟩ | hmem
      · exact Or.inl ⟨hg2, x, List.mem_cons_of_mem s hx, hxn⟩
      · rcases List.mem_cons.mp hmem with h1 | h2
        · exact Or.inl ⟨h1 ▸ hg, s, List.mem_cons_self s rest, h1 ▸ hm⟩
        · exact Or.inr h2
    cases hname : s.Name with
    | none =>
      simp only [updateLoop, hname] at hn
      rcases ih issued n hn with ⟨hg2, x, hx, hxn⟩ | hmem
      · exact Or.inl ⟨hg2, x, List.mem_cons_of_mem s hx, hxn⟩
      · exact Or.inr hmem
    | some m =>
      simp only [updateLoop, hname] at hn
      by_cases hg : isGatewayVMSSName m = true
      · rw [if_pos hg] at hn
        cases hu : c.createOrUpdateSucceeds m with
        | true =>
          rw [if_pos (by simp [hu])] at hn
          exact push m hg hname (ih (m :: issued) n hn)
        | false =>
          rw [if_neg (by simp [hu])] at hn
          simp only [List.reverse_cons] at hn
          have hn2 : n ∈ m :: issued := by
            rcases List.mem_append.mp hn with h1 | h2
            · exact List.mem_cons_of_mem m (List.mem_reverse.mp h1)
            · simp only [List.mem_singleton] at h2
              exact h2 ▸ List.mem_cons_self m issued
          exact push m hg hname (Or.inr hn2)
      · rw [if_neg hg] at hn
        rcases ih issued n hn with ⟨hg2, x, hx, hxn⟩ | hmem
        · exact Or.inl ⟨hg2, x, List.mem_cons_of_mem s hx, hxn⟩
        · exact Or.inr hmem

theorem collectEnvelopes_mem_of_id (resourceID location : String)
    (results : List GoValue) (v : GoValue) (hv : v ∈ results)
    (hid : 0 < (getDetectorID v).length) :
    ({ Id := pathJoin [resourceID, "detectors", getDetectorID v]
       Name := getDetectorID v
       Type' := "Microsoft.RedHatOpenShift/openShiftClusters/detectors"
       Location := location
       Properties := v } : ResponseMessageEnvelope) ∈
      collectEnvelopes resourceID location results := by
  induction results with
  | nil => simp at hv
  | cons w rest ih =>
    rcases List.mem_cons.mp hv with h1 | h2
    · subst h1
      unfold collectEnvelopes
      rw [if_pos hid]
      exact List.mem_cons_self _ _
    · unfold collectEnvelopes
      by_cases hw : 0 < (getDetectorID w).length
      · rw [if_pos hw]
        exact List.mem_cons_of_mem _ (ih h2)
      · rw [if_neg hw]
        exact ih h2

theorem collectEnvelopes_sound (resourceID location : String)
    (results : List GoValue) :
    ∀ env ∈ collectEnvelopes resourceID location results,
      0 < (getDetectorID env.Properties).length ∧ env.Properties ∈ results := by
  induction results with
  | nil => intro env henv; simp [collectEnvelopes] at henv
  | cons w rest ih =>
    intro env henv
    unfold collectEnvelopes at henv
    by_cases hw : 0 < (getDetectorID w).length
    · rw [if_pos hw] at henv
      rcases List.mem_cons.mp henv with h1 | h2
      · subst h1
        exact ⟨hw, List.mem_cons_self w rest⟩
      · rcases ih env h2 with ⟨ha, hb⟩
        exact ⟨ha, List.mem_cons_of_mem w hb⟩
    · rw [if_neg hw] at henv
      rcases ih env henv with ⟨ha, hb⟩
      exact ⟨ha, List.mem_cons_of_mem w hb⟩

/-! ## The in-tree unit tests, reproved against the model

Each theorem mirrors one case of TestRemoveFailedScaleset or TestUpdateProbe
and pins the spec-modelled definitions to the observable behaviour the tests
demand (the `want`/`expected` boolean, and which client calls are issued). -/

theorem test_remove_listFailed :
    RemoveFailedNewScaleset
      ⟨Except.error "Something went wrong", fun _ => true, fun _ => true⟩
      "newVMSS" = (false, []) := rfl

theorem test_remove_zeroScalesets :
    RemoveFailedNewScaleset
      ⟨Except.ok [], fun _ => true, fun _ => true⟩ "newVMSS" = (true, []) := rfl

theorem test_remove_oneOtherName :
    RemoveFailedNewScaleset
      ⟨Except.ok [⟨some "oldVMSS"⟩], fun _ => true, fun _ => true⟩
      "newVMSS" = (true, []) := by decide

theorem test_remove_oneSameName :
    RemoveFailedNewScaleset
      ⟨Except.ok [⟨some "newVMSS"⟩], fun _ => true, fun _ => true⟩
      "newVMSS" = (false, []) := by decide

theorem test_remove_targetNotFound :
    RemoveFailedNewScaleset
      ⟨Except.ok [⟨some "oldVMSS"⟩, ⟨some "otherVMSS"⟩], fun _ => true, fun _ => true⟩
      "newVMSS" = (true, []) := by decide

theorem test_remove_deletionFailed :
    RemoveFailedNewScaleset
      ⟨Except.ok [⟨some "oldVMSS"⟩, ⟨some "newVMSS"⟩], fun _ => false, fun _ => true⟩
      "newVMSS" = (false, ["newVMSS"]) := by decide

theorem test_remove_deletionSucceeded :
    RemoveFailedNewScaleset
      ⟨Except.ok [⟨some "oldVMSS"⟩, ⟨some "newVMSS"⟩], fun _ => true, fun _ => true⟩
      "newVMSS" = (true, ["newVMSS"]) := by decide

theorem test_update_listError :
    UpdateVMSSProbes ⟨Except.error "error", fun _ => true, fun _ => true⟩
      = (false, []) := rfl

theorem test_update_updateError :
    UpdateVMSSProbes
      ⟨Except.ok [⟨some "gateway-vmss-redhat"⟩], fun _ => true, fun _ => false⟩
      = (false, ["gateway-vmss-redhat"]) := by decide

theorem test_update_success :
    UpdateVMSSProbes
      ⟨Except.ok [⟨some "gateway-vmss-redhat"⟩], fun _ => true, fun _ => true⟩
      = (true, ["gateway-vmss-redhat"]) := by decide

theorem test_update_notGateway :
    UpdateVMSSProbes
      ⟨Except.ok [⟨some "spencers-vmss"⟩], fun _ => true, fun _ => true⟩
      = (true, []) := by decide

/-! ## Claim theorems -/

/-- C2: whenever the List call fails, RemoveFailedNewScaleset returns `false`
and never calls DeleteAndWait (no deletion is issued). -/
theorem claim_C2_list_failure_no_delete (c : VMSSClientBehavior) (t e : String)
    (h : c.listResult = Except.error e) :
    RemoveFailedNewScaleset c t = (false, []) := by
  simp only [RemoveFailedNewScaleset, h]

theorem claim_C2_witness :
    RemoveFailedNewScaleset ⟨Except.error "boom", fun _ => true, fun _ => true⟩
      "newVMSS" = (false, []) :=
  claim_C2_list_failure_no_delete
    ⟨Except.error "boom", fun _ => true, fun _ => true⟩ "newVMSS" "boom" rfl

/-- C3: a successful List returning the empty list makes
RemoveFailedNewScaleset return `true` (with no deletion), asymmetric with a
failed List, which makes it return `false`. -/
theorem claim_C3_empty_list_retries (c c' : VMSSClientBehavior) (t t' e : String)
    (h : c.listResult = Except.ok []) (h' : c'.listResult = Except.error e) :
    RemoveFailedNewScaleset c t = (true, []) ∧
    RemoveFailedNewScaleset c' t' = (false, []) := by
  constructor
  · simp only [RemoveFailedNewScaleset, h]
  · simp only [RemoveFailedNewScaleset, h']

theorem claim_C3_witness :
    RemoveFailedNewScaleset ⟨Except.ok [], fun _ => true, fun _ => true⟩
      "newVMSS" = (true, []) ∧
    RemoveFailedNewScaleset ⟨Except.error "boom", fun _ => true, fun _ => true⟩
      "newVMSS" = (false, []) :=
  claim_C3_empty_list_retries
    ⟨Except.ok [], fun _ => true, fun _ => true⟩
    ⟨Except.error "boom", fun _ => true, fun _ => true⟩
    "newVMSS" "newVMSS" "boom" rfl rfl

/-- C4: a successful List in which no name equals the target makes
RemoveFailedNewScaleset return `true` with no deletion issued, whatever the
number and order of the unrelated entries. -/
theorem claim_C4_no_match_retries (c : VMSSClientBehavior) (t : String)
    (sets : List VirtualMachineScaleSet) (h : c.listResult = Except.ok sets)
    (hnone : ∀ s ∈ sets, s.Name ≠ some t) :
    RemoveFailedNewScaleset c t = (true, []) := by
  cases sets with
  | nil => simp only [RemoveFailedNewScaleset, h]
  | cons a rest =>
    cases rest with
    | nil =>
      simp only [RemoveFailedNewScaleset, h]
      rw [if_neg (hnone a (List.mem_cons_self a []))]
    | cons b rest2 =>
      simp only [RemoveFailedNewScaleset, h]
      exact deleteLoop_no_match c t (a :: b :: rest2) [] hnone

theorem claim_C4_witness :
    RemoveFailedNewScaleset
      ⟨Except.ok [⟨some "otherVMSS"⟩, ⟨some "oldVMSS"⟩], fun _ => true, fun _ => true⟩
      "newVMSS" = (true, []) :=
  claim_C4_no_match_retries
    ⟨Except.ok [⟨some "otherVMSS"⟩, ⟨some "oldVMSS"⟩], fun _ => true, fun _ => true⟩
    "newVMSS" [⟨some "otherVMSS"⟩, ⟨some "oldVMSS"⟩] rfl (by decide)

/-- C9: when the target is the only listed scale set, RemoveFailedNewScaleset
returns `false` without calling DeleteAndWait. -/
theorem claim_C9_sole_target_abandons (c : VMSSClientBehavior) (t : String)
    (s : VirtualMachineScaleSet) (h : c.listResult = Except.ok [s])
    (hn : s.Name = some t) :
    RemoveFailedNewScaleset c t = (false, []) := by
  simp only [RemoveFailedNewScaleset, h]
  rw [if_pos hn]

theorem claim_C9_witness :
    RemoveFailedNewScaleset
      ⟨Except.ok [⟨some "newVMSS"⟩], fun _ => true, fun _ => true⟩
      "newVMSS" = (false, []) :=
  claim_C9_sole_target_abandons
    ⟨Except.ok [⟨some "newVMSS"⟩], fun _ => true, fun _ => true⟩
    "newVMSS" ⟨some "newVMSS"⟩ rfl rfl

/-- C1 fails as stated: when the target is the only scale set in the list, no
DeleteAndWait is issued and the remover returns `false`, even though the list
contains a scale set named exactly the target name and deletion would
succeed. -/
theorem claim_C1_counterexample :
    (∃ s ∈ [VirtualMachineScaleSet.mk (some "newVMSS")], s.Name = some "newVMSS") ∧
    RemoveFailedNewScaleset
      ⟨Except.ok [⟨some "newVMSS"⟩], fun _ => true, fun _ => true⟩
      "newVMSS" = (false, []) :=
  ⟨⟨⟨some "newVMSS"⟩, List.mem_singleton.mpr rfl, rfl⟩, by decide⟩

/-- C1 (amended): when the listing succeeds and the target name occurs in a
list with at least one other scale set, the remover issues DeleteAndWait for
that name; it returns `true` exactly when the deletion succeeds, `false` when
it fails. -/
theorem claim_C1_target_among_others_deleted (c : VMSSClientBehavior) (t : String)
    (a b : VirtualMachineScaleSet) (rest : List VirtualMachineScaleSet)
    (h : c.listResult = Except.ok (a :: b :: rest))
    (hmem : ∃ s ∈ a :: b :: rest, s.Name = some t) :
    t ∈ (RemoveFailedNewScaleset c t).2 ∧
    (RemoveFailedNewScaleset c t).1 = c.deleteSucceeds t := by
  have hRw : RemoveFailedNewScaleset c t = deleteLoop c t (a :: b :: rest) [] := by
    simp only [RemoveFailedNewScaleset, h]
  rw [hRw]
  exact ⟨deleteLoop_snd_mem c t _ [] (Or.inl hmem), deleteLoop_fst c t _ [] hmem⟩

theorem claim_C1_witness :
    "newVMSS" ∈ (RemoveFailedNewScaleset
      ⟨Except.ok [⟨some "oldVMSS"⟩, ⟨some "newVMSS"⟩], fun _ => true, fun _ => true⟩
      "newVMSS").2 ∧
    (RemoveFailedNewScaleset
      ⟨Except.ok [⟨some "oldVMSS"⟩, ⟨some "newVMSS"⟩], fun _ => true, fun _ => true⟩
      "newVMSS").1 =
      (⟨Except.ok [⟨some "oldVMSS"⟩, ⟨some "newVMSS"⟩], fun _ => true,
        fun _ => true⟩ : VMSSClientBehavior).deleteSucceeds "newVMSS" :=
  claim_C1_target_among_others_deleted
    ⟨Except.ok [⟨some "oldVMSS"⟩, ⟨some "newVMSS"⟩], fun _ => true, fun _ => true⟩
    "newVMSS" ⟨some "oldVMSS"⟩ ⟨some "newVMSS"⟩ [] rfl
    ⟨⟨some "newVMSS"⟩, by decide, rfl⟩

/-- C5: UpdateVMSSProbes returns `false` when the List call fails, `false`
when CreateOrUpdateAndWait fails for some gateway-named listed scale set, and
`true` when the listing succeeds and every attempted update succeeds. -/
theorem claim_C5_update_error_handling (c : VMSSClientBehavior) :
    (∀ e, c.listResult = Except.error e → UpdateVMSSProbes c = (false, [])) ∧
    (∀ sets, c.listResult = Except.ok sets →
      ((∃ s ∈ sets, ∃ n, s.Name = some n ∧ isGatewayVMSSName n = true ∧
          c.createOrUpdateSucceeds n = false) → (UpdateVMSSProbes c).1 = false) ∧
      ((∀ s ∈ sets, ∀ n, s.Name = some n → isGatewayVMSSName n = true →
          c.createOrUpdateSucceeds n = true) → (UpdateVMSSProbes c).1 = true)) := by
  refine ⟨fun e he => ?_, fun sets hs => ?_⟩
  · simp only [UpdateVMSSProbes, he]
  · have hRw : UpdateVMSSProbes c = updateLoop c sets [] := by
      simp only [UpdateVMSSProbes, hs]
    rw [hRw]
    exact ⟨updateLoop_fst_false c sets [], updateLoop_fst_true c sets []⟩

theorem claim_C5_witness :
    UpdateVMSSProbes ⟨Except.error "error", fun _ => true, fun _ => true⟩
      = (false, []) ∧
    (UpdateVMSSProbes
      ⟨Except.ok [⟨some "gateway-vmss-redhat"⟩], fun _ => true, fun _ => false⟩).1
      = false ∧
    (UpdateVMSSProbes
      ⟨Except.ok [⟨some "gateway-vmss-redhat"⟩], fun _ => true, fun _ => true⟩).1
      = true :=
  ⟨(claim_C5_update_error_handling
      ⟨Except.error "error", fun _ => true, fun _ => true⟩).1 "error" rfl,
   ((claim_C5_update_error_handling
      ⟨Except.ok [⟨some "gateway-vmss-redhat"⟩], fun _ => true, fun _ => false⟩).2
      [⟨some "gateway-vmss-redhat"⟩] rfl).1
     ⟨⟨some "gateway-vmss-redhat"⟩, by decide, "gateway-vmss-redhat", rfl, by decide, rfl⟩,
   ((claim_C5_update_error_handling
      ⟨Except.ok [⟨some "gateway-vmss-redhat"⟩], fun _ => true, fun _ => true⟩).2
      [⟨some "gateway-vmss-redhat"⟩] rfl).2 (fun _ _ _ _ _ => rfl)⟩

/-- C6: every update issued by UpdateVMSSProbes targets a gateway-named
listed scale set — a listed scale set whose name does not match the
convention receives no update call — and a successful listing containing
only non-matching names yields `(true, no updates)`. -/
theorem claim_C6_non_gateway_untouched (c : VMSSClientBehavior)
    (sets : List VirtualMachineScaleSet) (h : c.listResult = Except.ok sets) :
    (∀ n ∈ (UpdateVMSSProbes c).2,
      isGatewayVMSSName n = true ∧ ∃ s ∈ sets, s.Name = some n) ∧
    ((∀ s ∈ sets, ∀ n, s.Name = some n → isGatewayVMSSName n = false) →
      UpdateVMSSProbes c = (true, [])) := by
  have hRw : UpdateVMSSProbes c = updateLoop c sets [] := by
    simp only [UpdateVMSSProbes, h]
  rw [hRw]
  constructor
  · intro n hn
    rcases updateLoop_snd_from c sets [] n hn with hcase | hmem
    · exact hcase
    · simp at hmem
  · exact updateLoop_no_gateway c sets []

theorem claim_C6_witness :
    (∀ n ∈ (UpdateVMSSProbes
        ⟨Except.ok [⟨some "spencers-vmss"⟩], fun _ => true, fun _ => true⟩).2,
      isGatewayVMSSName n = true ∧
      ∃ s ∈ [VirtualMachineScaleSet.mk (some "spencers-vmss")], s.Name = some n) ∧
    UpdateVMSSProbes ⟨Except.ok [⟨some "spencers-vmss"⟩], fun _ => true, fun _ => true⟩
      = (true, []) :=
  ⟨(claim_C6_non_gateway_untouched
      ⟨Except.ok [⟨some "spencers-vmss"⟩], fun _ => true, fun _ => true⟩
      [⟨some "spencers-vmss"⟩] rfl).1,
   (claim_C6_non_gateway_untouched
      ⟨Except.ok [⟨some "spencers-vmss"⟩], fun _ => true, fun _ => true⟩
      [⟨some "spencers-vmss"⟩] rfl).2
     (by
       intro s hs n hn
       rw [List.mem_singleton] at hs
       subst hs
       injection hn with hn2
       subst hn2
       decide)⟩

/-- C7 fails as stated: the entry carries a nested metadata.id (the JSON
string ""), as witnessed through the source's own field lookups, yet the
produced collection is empty — no envelope is produced for it, because the
source keeps only entries whose extracted id has positive length. -/
theorem claim_C7_counterexample :
    lookupField [("metadata", GoValue.obj [("id", GoValue.str "")])] "metadata"
      = some (GoValue.obj [("id", GoValue.str "")]) ∧
    lookupField [("id", GoValue.str "")] "id" = some (GoValue.str "") ∧
    newResponseMessageCollectionEnvelope
      (some (GoValue.arr [GoValue.obj [("metadata", GoValue.obj [("id", GoValue.str "")])]]))
      "rid" "loc" = Except.ok { Value := [] } :=
  ⟨rfl, rfl, rfl⟩

/-- C7 (amended): in the collection form, every input entry carrying a
nonempty nested metadata.id produces an envelope whose Id is the path join of
resourceID, "detectors" and that id, whose Name is that id, whose Type is the
fixed detector type string, and whose Properties is the original decoded
entry; every entry whose extracted id is empty (in particular one lacking
metadata.id) is silently omitted from the produced collection. -/
theorem claim_C7_collection_wraps_by_id (results : List GoValue) (rid loc : String)
    (coll : ResponseMessageCollectionEnvelope)
    (hok : newResponseMessageCollectionEnvelope (some (GoValue.arr results)) rid loc
      = Except.ok coll)
    (v : GoValue) (hv : v ∈ results) :
    (getDetectorID v ≠ "" →
      ({ Id := pathJoin [rid, "detectors", getDetectorID v]
         Name := getDetectorID v
         Type' := "Microsoft.RedHatOpenShift/openShiftClusters/detectors"
         Location := loc
         Properties := v } : ResponseMessageEnvelope) ∈ coll.Value) ∧
    (getDetectorID v = "" → ∀ env ∈ coll.Value, env.Properties ≠ v) := by
  have hEq : newResponseMessageCollectionEnvelope (some (GoValue.arr results)) rid loc
      = Except.ok { Value := collectEnvelopes rid loc results } := rfl
  rw [hEq] at hok
  injection hok with hok2
  subst hok2
  constructor
  · intro hne
    exact collectEnvelopes_mem_of_id rid loc results v hv (string_length_pos _ hne)
  · intro hz env henv heq
    have hpos := (collectEnvelopes_sound rid loc results env henv).1
    rw [heq, hz] at hpos
    exact absurd hpos (by decide)

theorem claim_C7_witness :
    ({ Id := pathJoin ["rid", "detectors",
         getDetectorID (GoValue.obj [("metadata", GoValue.obj [("id", GoValue.str "x")])])]
       Name := getDetectorID (GoValue.obj [("metadata", GoValue.obj [("id", GoValue.str "x")])])
       Type' := "Microsoft.RedHatOpenShift/openShiftClusters/detectors"
       Location := "loc"
       Properties := GoValue.obj [("metadata", GoValue.obj [("id", GoValue.str "x")])] }
      : ResponseMessageEnvelope) ∈
      ({ Value := collectEnvelopes "rid" "loc"
          [GoValue.obj [("metadata", GoValue.obj [("id", GoValue.str "x")])]] }
        : ResponseMessageCollectionEnvelope).Value :=
  (claim_C7_collection_wraps_by_id
    [GoValue.obj [("metadata", GoValue.obj [("id", GoValue.str "x")])]] "rid" "loc"
    { Value := collectEnvelopes "rid" "loc"
        [GoValue.obj [("metadata", GoValue.obj [("id", GoValue.str "x")])]] }
    rfl
    (GoValue.obj [("metadata", GoValue.obj [("id", GoValue.str "x")])])
    (List.mem_singleton.mpr rfl)).1 (by decide)

/-- C8: on the detector path, a response body that is not valid JSON for the
expected shape makes ListDetectors and GetDetector return a decoding error
(and hence no envelope), and a successful pipeline response whose status is
neither 2xx nor 304 makes both return the AppLens error built from the
response, with no envelope produced. -/
theorem claim_C8_detector_error_handling (resp : HttpResponse)
    (o : ListDetectorsOptions) (og : GetDetectorOptions) :
    (resp.Body = none →
      ((200 ≤ resp.StatusCode ∧ resp.StatusCode < 300) ∨ resp.StatusCode = 304) →
      (∃ m, ListDetectors (Except.ok resp) o = Except.error (ClientError.decodeError m)) ∧
      (∃ m, GetDetector (Except.ok resp) og = Except.error (ClientError.decodeError m))) ∧
    (¬((200 ≤ resp.StatusCode ∧ resp.StatusCode < 300) ∨ resp.StatusCode = 304) →
      ListDetectors (Except.ok resp) o = Except.error (newAppLensError resp) ∧
      GetDetector (Except.ok resp) og = Except.error (newAppLensError resp)) := by
  constructor
  · intro hbody hstatus
    have hexec : executeAndEnsureSuccessResponse (Except.ok resp) = Except.ok resp := by
      simp only [executeAndEnsureSuccessResponse]
      rw [if_pos hstatus]
    constructor
    · refine ⟨"invalid character in JSON input", ?_⟩
      simp only [ListDetectors, hexec, newResponseMessageCollectionEnvelope, hbody,
        unmarshalArray]
    · refine ⟨"invalid character in JSON input", ?_⟩
      simp only [GetDetector, hexec, newResponseMessageEnvelope, hbody, unmarshalValue]
  · intro hstatus
    have hexec : executeAndEnsureSuccessResponse (Except.ok resp)
        = Except.error (newAppLensError resp) := by
      simp only [executeAndEnsureSuccessResponse]
      rw [if_neg hstatus]
    exact ⟨by simp only [ListDetectors, hexec], by simp only [GetDetector, hexec]⟩

theorem claim_C8_witness :
    (∃ m, ListDetectors (Except.ok ⟨200, none⟩) ⟨"rid", "loc"⟩
      = Except.error (ClientError.decodeError m)) ∧
    (∃ m, GetDetector (Except.ok ⟨200, none⟩) ⟨"rid", "d", "loc"⟩
      = Except.error (ClientError.decodeError m)) ∧
    ListDetectors (Except.ok ⟨500, some GoValue.null⟩) ⟨"rid", "loc"⟩
      = Except.error (newAppLensError ⟨500, some GoValue.null⟩) ∧
    GetDetector (Except.ok ⟨500, some GoValue.null⟩) ⟨"rid", "d", "loc"⟩
      = Except.error (newAppLensError ⟨500, some GoValue.null⟩) :=
  ⟨((claim_C8_detector_error_handling ⟨200, none⟩ ⟨"rid", "loc"⟩ ⟨"rid", "d", "loc"⟩).1
      rfl (by decide)).1,
   ((claim_C8_detector_error_handling ⟨200, none⟩ ⟨"rid", "loc"⟩ ⟨"rid", "d", "loc"⟩).1
      rfl (by decide)).2,
   ((claim_C8_detector_error_handling ⟨500, some GoValue.null⟩ ⟨"rid", "loc"⟩
      ⟨"rid", "d", "loc"⟩).2 (by decide)).1,
   ((claim_C8_detector_error_handling ⟨500, some GoValue.null⟩ ⟨"rid", "loc"⟩
      ⟨"rid", "d", "loc"⟩).2 (by decide)).2⟩

/-- C10: getDetectorID returns the empty string for every entry that is not a
JSON object, or whose metadata field is not a JSON object, or whose
metadata.id is absent or not a JSON string; consequently every such entry of
the input is dropped from the collection envelope (no produced envelope has
it as Properties). -/
theorem claim_C10_getDetectorID_defaults (v : GoValue)
    (h : ∀ fields metaFields s, ¬(v = GoValue.obj fields ∧
        lookupField fields "metadata" = some (GoValue.obj metaFields) ∧
        lookupField metaFields "id" = some (GoValue.str s))) :
    getDetectorID v = "" ∧
    ∀ results rid loc coll,
      newResponseMessageCollectionEnvelope (some (GoValue.arr results)) rid loc
        = Except.ok coll →
      v ∈ results → ∀ env ∈ coll.Value, env.Properties ≠ v := by
  have hz : getDetectorID v = "" := by
    cases v
    case obj fields =>
      cases hm : lookupField fields "metadata" with
      | none => simp [getDetectorID, hm]
      | some w =>
        cases w
        case obj metaFields =>
          cases hi : lookupField metaFields "id" with
          | none => simp [getDetectorID, hm, hi]
          | some u =>
            cases u
            case str s => exact absurd ⟨rfl, hm, hi⟩ (h fields metaFields s)
            all_goals simp [getDetectorID, hm, hi]
        all_goals simp [getDetectorID, hm]
    all_goals rfl
  refine ⟨hz, fun results rid loc coll hok hv env henv heq => ?_⟩
  have hEq : newResponseMessageCollectionEnvelope (some (GoValue.arr results)) rid loc
      = Except.ok { Value := collectEnvelopes rid loc results } := rfl
  rw [hEq] at hok
  injection hok with hok2
  subst hok2
  have hpos := (collectEnvelopes_sound rid loc results env henv).1
  rw [heq, hz] at hpos
  exact absurd hpos (by decide)

theorem claim_C10_witness :
    getDetectorID (GoValue.str "probe") = "" ∧
    ∀ results rid loc coll,
      newResponseMessageCollectionEnvelope (some (GoValue.arr results)) rid loc
        = Except.ok coll →
      GoValue.str "probe" ∈ results →
      ∀ env ∈ coll.Value, env.Properties ≠ GoValue.str "probe" :=
  claim_C10_getDetectorID_defaults (GoValue.str "probe")
    (fun _ _ _ hc => GoValue.noConfusion hc.1)
